import Mathlib

/-!
Shallow embedding of the `klogger` crate (`src/lib.rs`): the filter-directive
data model, the spec-string parsing in `parse_args`, the matching algorithm
`enabled`, the elapsed-time computation `KLogger::elapsed`, and the `init`
state transition against the `log` facade.

Strings are modelled as `List Char`; Rust's `str::split(char)`, `str::trim`
and `str::starts_with` are given structurally recursive counterparts so all
definitions compute inside the kernel. `u64` arithmetic is `Nat` with an
explicit `% 2 ^ 64` where wrap-around matters.
-/

namespace Klogger

/-- `log::LevelFilter`: `Off < Error < Warn < Info < Debug < Trace`. -/
inductive LevelFilter
  | off
  | error
  | warn
  | info
  | debug
  | trace
deriving DecidableEq

/-- Numeric representation of `LevelFilter` as in the `log` crate (`usize` repr). -/
def LevelFilter.toNat : LevelFilter → Nat
  | .off => 0
  | .error => 1
  | .warn => 2
  | .info => 3
  | .debug => 4
  | .trace => 5

/-- `LevelFilter::max()` in the `log` crate: the most verbose filter, `Trace`. -/
def LevelFilter.max : LevelFilter := .trace

/-- `log::Level`: `Error < Warn < Info < Debug < Trace` (no `Off`). -/
inductive Level
  | error
  | warn
  | info
  | debug
  | trace
deriving DecidableEq

/-- Numeric representation of `Level` as in the `log` crate: `Error = 1` … `Trace = 5`. -/
def Level.toNat : Level → Nat
  | .error => 1
  | .warn => 2
  | .info => 3
  | .debug => 4
  | .trace => 5

/-- `level <= filter` for a `Level` against a `LevelFilter`: the `log` crate
compares the numeric representations. -/
def levelLeFilter (l : Level) (f : LevelFilter) : Bool :=
  decide (l.toNat ≤ f.toNat)

/-- One filter rule (`struct Directive` in `src/lib.rs`): optional target-name
plus a `LevelFilter` threshold. -/
structure Directive where
  name : Option (List Char)
  level : LevelFilter
deriving DecidableEq

/-- Rust `str::starts_with` on the character-list model. -/
def startsWithList : List Char → List Char → Bool
  | _, [] => true
  | [], _ :: _ => false
  | c :: s, d :: p => c = d && startsWithList s p

/-- Rust `str::split(sep)` on the character-list model: splits at every
occurrence of `sep`; the empty string yields one empty segment. -/
def splitChar (sep : Char) : List Char → List (List Char)
  | [] => [[]]
  | c :: rest =>
    let r := splitChar sep rest
    if c = sep then [] :: r
    else
      match r with
      | [] => [[c]]
      | g :: gs => (c :: g) :: gs

/-- ASCII upper-casing of one character, for case-insensitive level names. -/
def asciiUpper (c : Char) : Char :=
  if 97 ≤ c.toNat && c.toNat ≤ 122 then Char.ofNat (c.toNat - 32) else c

/-- Rust `eq_ignore_ascii_case` on the character-list model. -/
def eqIgnoreAsciiCase (a b : List Char) : Bool :=
  a.map asciiUpper == b.map asciiUpper

/-- Modelled from the `log` crate (external collaborator, not part of this
repository): `FromStr for LevelFilter` matches one of the six level names
ASCII-case-insensitively and accepts nothing else. -/
def levelFilterFromStr (s : List Char) : Option LevelFilter :=
  if eqIgnoreAsciiCase s "OFF".toList then some .off
  else if eqIgnoreAsciiCase s "ERROR".toList then some .error
  else if eqIgnoreAsciiCase s "WARN".toList then some .warn
  else if eqIgnoreAsciiCase s "INFO".toList then some .info
  else if eqIgnoreAsciiCase s "DEBUG".toList then some .debug
  else if eqIgnoreAsciiCase s "TRACE".toList then some .trace
  else none

/-- Rust `str::trim` on the character-list model: strip whitespace from both ends. -/
def trimList (s : List Char) : List Char :=
  ((s.dropWhile Char.isWhitespace).reverse.dropWhile Char.isWhitespace).reverse

/-- The per-entry step of `parse_args` (`src/lib.rs`, the body of the
`for s in m.split(',')` loop up to the `push`): `none` when the entry is
skipped (empty) or dropped (unparseable level, two or more `=`), otherwise
the directive it denotes.  Splitting `s` at `=` and inspecting the first
three pieces reproduces the `(parts.next(), parts.next().map(trim),
parts.next())` match of the source. -/
def parse_entry (s : List Char) : Option Directive :=
  if s.length = 0 then none
  else
    match splitChar '=' s with
    | [part0] =>
      match levelFilterFromStr part0 with
      | some num => some ⟨none, num⟩
      | none => some ⟨some part0, LevelFilter.max⟩
    | [part0, part1] =>
      let part1 := trimList part1
      if part1.isEmpty then some ⟨some part0, LevelFilter.max⟩
      else
        match levelFilterFromStr part1 with
        | some num => some ⟨some part0, num⟩
        | none => none
    | _ => none

/-- `heapless::Vec<Directive, 8>::push`: appends only while fewer than 8
elements are stored, otherwise leaves the vector unchanged (the source just
logs the rejected directive). -/
def push8 (filter : List Directive) (d : Directive) : List Directive :=
  if filter.length < 8 then filter ++ [d] else filter

/-- Processing of one comma-separated entry inside `parse_args`: parse it and
push the resulting directive, if any. -/
def applyEntry (filter : List Directive) (s : List Char) : List Directive :=
  match parse_entry s with
  | some d => push8 filter d
  | none => filter

/-- The entry loop of `parse_args` over the already-comma-split entry list. -/
def parse_mods (filter : List Directive) (entries : List (List Char)) : List Directive :=
  entries.foldl applyEntry filter

/-- `parse_args` (`src/lib.rs`): split the spec at `/`; if more than one piece
results (the source's second `parts.next().is_some()`), warn and return with
the caller's vector untouched; otherwise parse the comma-separated entries of
the single piece into it. -/
def parse_args (filter : List Directive) (spec : List Char) : List Directive :=
  match splitChar '/' spec with
  | [mods] => parse_mods filter (splitChar ',' mods)
  | _ => filter

/-- `enabled` (`src/lib.rs`): reverse scan over the directives; the first
directive whose name is `None` or a leading piece of the target decides with
`level <= directive.level`; no match means `false`. This is the loop body on
the already-reversed list. -/
def enabledRev (level : Level) (target : List Char) : List Directive → Bool
  | [] => false
  | d :: rest =>
    match d.name with
    | some name =>
      if startsWithList target name then levelLeFilter level d.level
      else enabledRev level target rest
    | none => levelLeFilter level d.level

/-- `enabled` (`src/lib.rs`): iterate `directives.iter().rev()`. -/
def enabled (directives : List Directive) (level : Level) (target : List Char) : Bool :=
  enabledRev level target directives.reverse

/-- Spec-side predicate: a directive applies to a target when its name is
`None` or its name starts the target. -/
def directiveMatches (d : Directive) (target : List Char) : Bool :=
  match d.name with
  | none => true
  | some name => startsWithList target name

/-- The matching algorithm as the spec words it: find the first applicable
directive scanning from the most recently appended one backward and return
`level <= directive.level` there, defaulting to `false`. -/
def enabledSpec (directives : List Directive) (level : Level) (target : List Char) : Bool :=
  match directives.reverse.find? (fun d => directiveMatches d target) with
  | some d => levelLeFilter level d.level
  | none => false

/-- The `KLogger` singleton state (`struct KLogger` in `src/lib.rs`). -/
structure KLogger where
  has_tsc : Bool
  has_invariant_tsc : Bool
  tsc_start : Nat
  tsc_frequency : Option Nat
  filter : List Directive
deriving DecidableEq

/-- `enum ElapsedTime` (`src/lib.rs`). -/
inductive ElapsedTime
  | Undetermined
  | Nanoseconds (ns : Nat)
  | Cycles (cycles : Nat)
deriving DecidableEq

/-- Wrapping `u64` subtraction: `(a - b) mod 2 ^ 64`. -/
def sub64 (a b : Nat) : Nat :=
  (a % 2 ^ 64 + 2 ^ 64 - b % 2 ^ 64) % 2 ^ 64

/-- `KLogger::elapsed` (`src/lib.rs`), with the current counter value `cur`
(the source's `arch::get_timestamp()`) passed in as the environment: with an
invariant counter and a known frequency it returns the raw cycle delta as
`Nanoseconds` (the conversion is left as a TODO in the source); with a counter
that is not invariant or has no known frequency it returns `Cycles cur`;
without a counter it returns `Undetermined`. -/
def KLogger.elapsed (k : KLogger) (cur : Nat) : ElapsedTime :=
  if k.has_tsc then
    if k.has_invariant_tsc && k.tsc_frequency.isSome then
      let elapsed_cycles := sub64 cur k.tsc_start
      ElapsedTime.Nanoseconds elapsed_cycles
    else
      ElapsedTime.Cycles cur
  else
    ElapsedTime.Undetermined

/-- Maximum of two `LevelFilter`s by their numeric representation. -/
def lfMax (a b : LevelFilter) : LevelFilter :=
  if a.toNat ≤ b.toNat then b else a

/-- `KLogger::filter` (the method, renamed because the state field keeps the
source's name): maximum directive level, `Off` when there are no directives.
`Off` is the least filter, so folding from it equals `max().unwrap_or(Off)`. -/
def KLogger.filterMax (k : KLogger) : LevelFilter :=
  (k.filter.map Directive.level).foldl lfMax .off

/-- The environment probed by `init`: the `arch` timing collaborator's answers
(`has_tsc()`, `has_invariant_tsc()`, `get_timestamp()`,
`get_tsc_frequency_hz()`, `get_vmm_tsc_frequency_hz()`). -/
structure Env where
  has_tsc : Bool
  has_invariant_tsc : Bool
  timestamp : Nat
  tsc_frequency_hz : Option Nat
  vmm_tsc_frequency_hz : Option Nat
deriving DecidableEq

/-- Process-wide logging state: the `LOGGER` static together with the `log`
facade's registration flag (`log::set_logger` succeeds only once) and the
installed `log::set_max_level` ceiling. -/
structure LogState where
  logger : KLogger
  initialized : Bool
  max_level : LevelFilter
deriving DecidableEq

/-- `init` (`src/lib.rs`) as a transition on `LogState`, returning the new
state and whether the call succeeded (`Ok`).  The source mutates the `LOGGER`
static (timestamp capabilities, frequency, parsed directives) before calling
`log::set_logger`, which fails when a logger is already installed; only on
success is the max-level ceiling installed. -/
def init (env : Env) (args : List Char) (st : LogState) : LogState × Bool :=
  let logger := st.logger
  let logger := { logger with has_tsc := env.has_tsc, has_invariant_tsc := env.has_invariant_tsc }
  let logger := if logger.has_tsc then { logger with tsc_start := env.timestamp } else logger
  let logger :=
    if env.tsc_frequency_hz.isSome then { logger with tsc_frequency := env.tsc_frequency_hz }
    else if env.vmm_tsc_frequency_hz.isSome then
      { logger with tsc_frequency := env.vmm_tsc_frequency_hz }
    else logger
  let logger := { logger with filter := parse_args logger.filter args }
  if st.initialized then ({ st with logger := logger }, false)
  else ({ logger := logger, initialized := true, max_level := logger.filterMax }, true)

/-! ## Helper lemmas -/

theorem enabledRev_eq_find (l : Level) (t : List Char) (ds : List Directive) :
    enabledRev l t ds =
      (match ds.find? (fun d => directiveMatches d t) with
       | some d => levelLeFilter l d.level
       | none => false) := by
  induction ds with
  | nil => rfl
  | cons d rest ih =>
    cases h : d.name with
    | none =>
      simp [enabledRev, List.find?, directiveMatches, h]
    | some name =>
      cases hs : startsWithList t name with
      | true => simp [enabledRev, List.find?, directiveMatches, h, hs]
      | false => simp [enabledRev, List.find?, directiveMatches, h, hs, ih]

theorem splitChar_ne_nil (sep : Char) (s : List Char) : splitChar sep s ≠ [] := by
  cases s with
  | nil => simp [splitChar]
  | cons c rest =>
    simp only [splitChar]
    by_cases hc : c = sep
    · simp [hc]
    · simp only [hc, if_false]
      cases h : splitChar sep rest <;> simp

theorem splitChar_length (sep : Char) (s : List Char) :
    (splitChar sep s).length = s.count sep + 1 := by
  induction s with
  | nil => rfl
  | cons c rest ih =>
    simp only [splitChar]
    by_cases hc : c = sep
    · simp [hc, List.count_cons, ih]
    · rcases h : splitChar sep rest with _ | ⟨g, gs⟩
      · exact absurd h (splitChar_ne_nil sep rest)
      · rw [h] at ih
        simp only [List.length_cons] at ih
        simp [hc, h, List.count_cons, Ne.symm hc, ih]

theorem parse_mods_of_full (es : List (List Char)) :
    ∀ f : List Directive, 8 ≤ f.length → parse_mods f es = f := by
  induction es with
  | nil => intro f _; rfl
  | cons e es ih =>
    intro f hf
    have happ : applyEntry f e = f := by
      unfold applyEntry
      cases parse_entry e with
      | none => rfl
      | some d =>
        show (if f.length < 8 then f ++ [d] else f) = f
        rw [if_neg (by omega)]
    have hstep : parse_mods f (e :: es) = parse_mods (applyEntry f e) es := rfl
    rw [hstep, happ]
    exact ih f hf

theorem parse_mods_eq_take (es : List (List Char)) :
    ∀ f : List Directive,
      parse_mods f es = f ++ (es.filterMap parse_entry).take (8 - f.length) := by
  induction es with
  | nil => intro f; simp [parse_mods]
  | cons e es ih =>
    intro f
    have hstep : parse_mods f (e :: es) = parse_mods (applyEntry f e) es := rfl
    rw [hstep]
    cases hp : parse_entry e with
    | none =>
      rw [show applyEntry f e = f from by unfold applyEntry; rw [hp]]
      rw [ih f]
      simp [List.filterMap_cons, hp]
    | some d =>
      by_cases hlen : f.length < 8
      · rw [show applyEntry f e = f ++ [d] from by
          simp [applyEntry, push8, hp, hlen]]
        rw [ih (f ++ [d])]
        have h8 : 8 - f.length = (8 - (f.length + 1)) + 1 := by omega
        simp [List.filterMap_cons, hp, h8, List.take_succ_cons]
      · rw [show applyEntry f e = f from by
          simp [applyEntry, push8, hp, hlen]]
        rw [parse_mods_of_full es f (by omega)]
        have h0 : 8 - f.length = 0 := by omega
        simp [h0]

theorem parse_args_append (filter : List Directive) (spec : List Char) :
    ∃ rest, parse_args filter spec = filter ++ rest := by
  rcases hs : splitChar '/' spec with _ | ⟨mods, rest2⟩
  · exact ⟨[], by unfold parse_args; rw [hs]; simp⟩
  · cases rest2 with
    | nil =>
      refine ⟨(splitChar ',' mods).filterMap parse_entry |>.take (8 - filter.length), ?_⟩
      unfold parse_args
      rw [hs]
      exact parse_mods_eq_take (splitChar ',' mods) filter
    | cons b l => exact ⟨[], by unfold parse_args; rw [hs]; simp⟩

theorem parse_mods_drop (filter : List Directive) (pre post : List (List Char))
    (e : List Char) (h : parse_entry e = none) :
    parse_mods filter (pre ++ e :: post) = parse_mods filter (pre ++ post) := by
  unfold parse_mods
  rw [List.foldl_append, List.foldl_append, List.foldl_cons]
  congr 1
  unfold applyEntry
  rw [h]

/-- An entry of shape `target=level` whose level part does not parse (after
trimming, and not empty). -/
def hasInvalidLevel (s : List Char) : Bool :=
  match splitChar '=' s with
  | [_, part1] => !(trimList part1).isEmpty && (levelFilterFromStr (trimList part1)).isNone
  | _ => false

/-- An entry containing two or more `=` characters. -/
def hasMultipleEq (s : List Char) : Bool :=
  decide (3 ≤ (splitChar '=' s).length)

theorem parse_entry_eq_none (s : List Char)
    (h : hasInvalidLevel s = true ∨ hasMultipleEq s = true) :
    parse_entry s = none := by
  unfold parse_entry
  by_cases hlen : s.length = 0
  · simp [hlen]
  · rw [if_neg hlen]
    rcases hsplit : splitChar '=' s with _ | ⟨p0, _ | ⟨p1, _ | ⟨p2, l⟩⟩⟩
    · rfl
    · exfalso
      rcases h with h | h
      · unfold hasInvalidLevel at h; rw [hsplit] at h; simp at h
      · unfold hasMultipleEq at h; rw [hsplit] at h; simp at h
    · rcases h with h | h
      · unfold hasInvalidLevel at h
        rw [hsplit] at h
        simp only [Bool.and_eq_true, Bool.not_eq_true', Option.isNone_iff_eq_none] at h
        simp [h.1, h.2]
      · exfalso
        unfold hasMultipleEq at h; rw [hsplit] at h; simp at h
    · rfl

/-! ## Concrete states used in counterexamples and witnesses -/

/-- Timing environment: invariant counter at 1 GHz, first probe at counter 1000. -/
def envA : Env := ⟨true, true, 1000, some 1000000000, none⟩

/-- Same environment probed again later, at counter 2000. -/
def envB : Env := { envA with timestamp := 2000 }

/-- The zero-initialized process state (`static mut LOGGER` before `init`). -/
def stInit : LogState := ⟨⟨false, false, 0, none, []⟩, false, .off⟩

/-- The state after a first successful `init` with spec `"info"`. -/
def stAfterFirst : LogState := (init envA "info".toList stInit).1

/-- Logger with invariant counter and known frequency 2 GHz, epoch 0. -/
def kloggerCalibrated : KLogger := ⟨true, true, 0, some 2000000000, []⟩

/-- Logger with a counter that is not invariant, epoch 100, no frequency. -/
def kloggerNonInvariant : KLogger := ⟨true, false, 100, none, []⟩

/-- Logger reporting no counter at all. -/
def kloggerNoTsc : KLogger := ⟨false, false, 0, none, []⟩

/-! ## Claim theorems -/

/-- C1: `enabled(D, l, t)` scans `D` from the most-recently-appended entry
backward and returns, at the first directive whose name is `None` or whose
name is a leading piece of `t`, the truth value of `l <= directive.level`;
if no directive matches — in particular for every level when `D` is empty —
it returns `false`. -/
theorem enabled_reverse_scan_c1 (D : List Directive) (l : Level) (t : List Char) :
    enabled D l t = enabledSpec D l t ∧ enabled [] l t = false :=
  ⟨enabledRev_eq_find l t D.reverse, rfl⟩

/-- C2 counterexample: after a successful `init`, a second `init` call does
fail, yet it mutates the installation: the directive sequence gains the newly
parsed directive and `tsc_start` is re-sampled, so the first installation is
not observably unchanged as the claim requires. -/
theorem init_second_call_mutates_cex :
    (init envB "debug".toList stAfterFirst).2 = false ∧
    (init envB "debug".toList stAfterFirst).1.logger.filter ≠ stAfterFirst.logger.filter ∧
    (init envB "debug".toList stAfterFirst).1.logger.tsc_start ≠ stAfterFirst.logger.tsc_start := by
  decide

/-- C2 amended: when the state is already initialized, a second `init` call
fails and leaves the initialized flag and the installed max-level ceiling
unchanged, but it still re-samples the timestamp capability fields and appends
the newly parsed directives after the existing ones (which are preserved as an
unchanged initial segment). -/
theorem init_second_call_c2 (env : Env) (args : List Char) (st : LogState)
    (h : st.initialized = true) :
    (init env args st).2 = false ∧
    (init env args st).1.initialized = true ∧
    (init env args st).1.max_level = st.max_level ∧
    (init env args st).1.logger.has_tsc = env.has_tsc ∧
    ∃ rest, (init env args st).1.logger.filter = st.logger.filter ++ rest := by
  obtain ⟨rest, hrest⟩ := parse_args_append st.logger.filter args
  obtain ⟨etsc, einv, ets, ef, evf⟩ := env
  refine ⟨?_, ?_, ?_, ?_, rest, ?_⟩ <;>
    cases etsc <;> rcases ef with _ | f <;> rcases evf with _ | vf <;>
      simp [init, h, hrest]

/-- C2 witness: the amended statement at the concrete second call. -/
theorem init_second_call_c2_witness :
    (init envB "debug".toList stAfterFirst).2 = false ∧
    (init envB "debug".toList stAfterFirst).1.initialized = true ∧
    (init envB "debug".toList stAfterFirst).1.max_level = stAfterFirst.max_level ∧
    (init envB "debug".toList stAfterFirst).1.logger.has_tsc = envB.has_tsc ∧
    ∃ rest, (init envB "debug".toList stAfterFirst).1.logger.filter =
      stAfterFirst.logger.filter ++ rest :=
  init_second_call_c2 envB "debug".toList stAfterFirst (by decide)

/-- C3 counterexample: a spec with exactly one `/` does not have its leading
entries parsed — `"info/foo"` yields the empty (deny-all) directive set, while
the same entries without the slash parse to the global `info` directive. -/
theorem parse_args_single_slash_cex :
    parse_args [] "info/foo".toList = [] ∧
    parse_args [] "info".toList = [⟨none, LevelFilter.info⟩] := by decide

/-- C3 amended: any spec containing at least one `/` aborts parsing with a
diagnostic and leaves the caller's directive vector unchanged (so an empty
vector stays the deny-all empty set), regardless of the content around the
slashes; only slash-free specs are parsed. -/
theorem parse_args_slash_aborts_c3 (filter : List Directive) (spec : List Char)
    (h : '/' ∈ spec) :
    parse_args filter spec = filter := by
  have h2 : 2 ≤ (splitChar '/' spec).length := by
    rw [splitChar_length]
    have hc : 0 < spec.count '/' := List.count_pos_iff.mpr h
    omega
  rcases hs : splitChar '/' spec with _ | ⟨a, _ | ⟨b, l⟩⟩
  · rw [hs] at h2; simp at h2
  · rw [hs] at h2; simp at h2
  · unfold parse_args; rw [hs]

/-- C3 witness: the amended statement at the concrete one-slash spec. -/
theorem parse_args_slash_aborts_c3_witness :
    parse_args [] "info/foo".toList = [] :=
  parse_args_slash_aborts_c3 [] "info/foo".toList (by decide)

/-- C4 (code bug): with an invariant counter at 2 GHz, epoch 0 and current
counter 2·10⁹ (one elapsed second), `elapsed` returns
`Nanoseconds 2000000000` — the raw cycle delta — whereas the specified
conversion `cycles * 1_000_000_000 / frequency_hz` gives `1000000000`; the
conversion the source leaves as a TODO is dropped. -/
theorem elapsed_mislabels_cycles_c4 :
    kloggerCalibrated.elapsed 2000000000 = ElapsedTime.Nanoseconds 2000000000 ∧
    sub64 2000000000 kloggerCalibrated.tsc_start * 1000000000 / 2000000000 = 1000000000 ∧
    (2000000000 : Nat) ≠ 1000000000 := by decide

/-- C5 counterexample: with a non-invariant counter, epoch 100 and current
counter 150, `elapsed` returns `Cycles 150` — the raw current counter value —
not `Cycles 50`, the delta since the epoch claimed by the spec. -/
theorem elapsed_cycles_not_delta_cex :
    kloggerNonInvariant.elapsed 150 = ElapsedTime.Cycles 150 ∧
    ElapsedTime.Cycles 150 ≠
      ElapsedTime.Cycles (sub64 150 kloggerNonInvariant.tsc_start) := by decide

/-- C5 amended: with no counter capability `elapsed` returns `Undetermined`;
with a counter that is not invariant or whose frequency is unknown it returns
`Cycles(read_counter())` — the raw current counter value, not the delta since
the initialization epoch. -/
theorem elapsed_branches_c5 (k : KLogger) (cur : Nat) :
    (k.has_tsc = false → k.elapsed cur = ElapsedTime.Undetermined) ∧
    (k.has_tsc = true → (k.has_invariant_tsc && k.tsc_frequency.isSome) = false →
      k.elapsed cur = ElapsedTime.Cycles cur) := by
  refine ⟨fun h => ?_, fun h hf => ?_⟩
  · simp [KLogger.elapsed, h]
  · simp [KLogger.elapsed, h, hf]

/-- C5 witness: both amended branches at concrete logger states. -/
theorem elapsed_branches_c5_witness :
    kloggerNoTsc.elapsed 5 = ElapsedTime.Undetermined ∧
    kloggerNonInvariant.elapsed 150 = ElapsedTime.Cycles 150 :=
  ⟨(elapsed_branches_c5 kloggerNoTsc 5).1 rfl,
   (elapsed_branches_c5 kloggerNonInvariant 150).2 rfl rfl⟩

/-- C6: parsing `"crate1::mod1=error,crate1::mod2,crate2=debug"` into an
empty directive vector yields exactly three directives in order:
`crate1::mod1` at `Error`, `crate1::mod2` at the maximum level, and `crate2`
at `Debug`. -/
theorem parse_args_roundtrip_c6 :
    parse_args [] "crate1::mod1=error,crate1::mod2,crate2=debug".toList =
      [⟨some "crate1::mod1".toList, .error⟩,
       ⟨some "crate1::mod2".toList, LevelFilter.max⟩,
       ⟨some "crate2".toList, .debug⟩] := by decide

/-- C7: an entry whose level part fails to parse, or an entry with two or
more `=`, is dropped in its entirety while the remaining entries are parsed
unchanged; in particular `"crate1::mod1=warn=info,crate2=debug"` yields
exactly the single directive `crate2` at `Debug`. -/
theorem parse_args_drops_bad_entries_c7 :
    (∀ (filter : List Directive) (pre post : List (List Char)) (e : List Char),
      hasInvalidLevel e = true ∨ hasMultipleEq e = true →
      parse_mods filter (pre ++ e :: post) = parse_mods filter (pre ++ post)) ∧
    parse_args [] "crate1::mod1=warn=info,crate2=debug".toList =
      [⟨some "crate2".toList, .debug⟩] :=
  ⟨fun filter pre post e h => parse_mods_drop filter pre post e (parse_entry_eq_none e h),
   by decide⟩

/-- C7 witness: dropping the malformed entry `"crate1::mod1=warn=info"`
leaves parsing of the remaining entry unchanged. -/
theorem parse_args_drops_bad_entries_c7_witness :
    parse_mods [] ([] ++ "crate1::mod1=warn=info".toList :: ["crate2=debug".toList]) =
      parse_mods [] ([] ++ ["crate2=debug".toList]) :=
  parse_args_drops_bad_entries_c7.1 [] [] ["crate2=debug".toList]
    "crate1::mod1=warn=info".toList (Or.inr (by decide))

/-- C8: for a slash-free spec parsed into an empty vector, the result is the
directives of the valid entries in their order of appearance in the spec,
truncated to the fixed capacity 8 — so a spec with more than 8 valid entries
yields exactly the first 8, and later valid entries are dropped while parsing
continues. -/
theorem parse_args_capacity_c8 (spec : List Char)
    (h : splitChar '/' spec = [spec]) :
    parse_args [] spec = ((splitChar ',' spec).filterMap parse_entry).take 8 := by
  unfold parse_args
  rw [h]
  simpa using parse_mods_eq_take (splitChar ',' spec) []

/-- C8 witness: a spec with nine valid entries yields exactly its first eight
directives. -/
theorem parse_args_capacity_c8_witness :
    parse_args [] "a,b,c,d,e,f,g,h,i".toList =
      ((splitChar ',' "a,b,c,d,e,f,g,h,i".toList).filterMap parse_entry).take 8 ∧
    (parse_args [] "a,b,c,d,e,f,g,h,i".toList).length = 8 :=
  ⟨parse_args_capacity_c8 "a,b,c,d,e,f,g,h,i".toList (by decide), by decide⟩

/-- C10: `parse_args` only appends — for every caller-owned directive vector
and every spec, the previous contents remain an unchanged initial segment of
the result, with any newly parsed directives after them. -/
theorem parse_args_only_appends_c10 (filter : List Directive) (spec : List Char) :
    ∃ rest, parse_args filter spec = filter ++ rest :=
  parse_args_append filter spec

end Klogger
